import Mathlib

/-!
Verification development for the HNSW vector-collection core of the
sahomedb repository (src/func/collection.rs).

Modelling conventions used throughout:
* `f32` values (vector components, distances, the layer multiplier `ml`)
  are modelled as exact rationals `ℚ`; the Euclidean distance is the sum
  of squared differences (the square root is omitted, as the spec allows:
  it is monotone).
* `VectorID` is a natural number; the sentinel `INVALID` is
  `u32::MAX = 4294967295`, exactly as the source encodes it.
* `HashMap` is modelled as an association list with unique keys
  (`insertKV` erases the key before prepending), so `lookupKV` and the
  length agree with the map semantics of the source.
* Rust panics (`unwrap` on a missing seed, out-of-bounds slice indexing,
  `HashMap` indexing on an absent key) are modelled as error outcomes;
  mutating operations return `Option Err × Collection`, where the
  returned collection is the state at the point the operation stopped,
  so early-return error branches leave the collection unchanged.
* The parallel iterations of the source (`into_par_iter`) are modelled
  sequentially in ascending index order, and `find_first` as `List.find?`.
* The `Search` beam-search engine, the distance function and the node
  types live in source files that are not part of `src/`; they are
  modelled from the spec where so marked.
-/

/-- The sentinel `INVALID` vector ID: `u32::MAX`, as persisted by the source. -/
def u32Max : ℕ := 4294967295

/-- `INVALID` vector ID (`VectorID(u32::MAX)`). -/
def INVALID : ℕ := u32Max

/-- Modelled from the spec: a vector ID is valid when it is not the `INVALID` sentinel. -/
def isValid (id : ℕ) : Bool := id != INVALID

/-- Modelled from the spec: a vector is a sequence of numeric components (`ℚ` for `f32`). -/
abbrev Vec : Type := List ℚ

/-- Exact rational multiplication, written through `mkRat` so that it
kernel-reduces on concrete inputs (the library multiplication on `ℚ` is
irreducible). -/
def qmul (a b : ℚ) : ℚ := mkRat (a.num * b.num) (a.den * b.den)

/-- Exact rational subtraction through `mkRat` (see `qmul`). -/
def qsub (a b : ℚ) : ℚ := mkRat (a.num * b.den - b.num * a.den) (a.den * b.den)

/-- Exact rational addition through `mkRat` (see `qmul`). -/
def qadd (a b : ℚ) : ℚ := mkRat (a.num * b.den + b.num * a.den) (a.den * b.den)

/-- The floor of a non-negative rational as a natural number: the Rust
`as usize` truncation of a non-negative `f32` product (negative values
saturate to zero, as in Rust). -/
def floorNat (q : ℚ) : ℕ := q.num.toNat / q.den

/-- Modelled from the spec: squared Euclidean distance (sum of squared differences). -/
def distQ (a b : Vec) : ℚ :=
  (List.zip a b).foldl (fun acc p => qadd acc (qmul (qsub p.1 p.2) (qsub p.1 p.2))) 0

/-- Association-list model of `HashMap<VectorID, α>`. -/
abbrev KV (α : Type) : Type := List (ℕ × α)

/-- Lookup in the association-list map. -/
def lookupKV {α : Type} (l : KV α) (k : ℕ) : Option α :=
  (l.find? (fun p => p.1 == k)).map (fun p => p.2)

/-- Remove a key from the association-list map. -/
def eraseKV {α : Type} (k : ℕ) (l : KV α) : KV α :=
  l.filter (fun p => p.1 != k)

/-- Insert a key into the association-list map, keeping keys unique. -/
def insertKV {α : Type} (k : ℕ) (v : α) (l : KV α) : KV α :=
  (k, v) :: eraseKV k l

/-- Length (number of keys) of the association-list map. -/
def lenKV {α : Type} (l : KV α) : ℕ := l.length

/-- Emptiness of the association-list map. -/
def isEmptyKV {α : Type} (l : KV α) : Bool := l.isEmpty

/-- The collection HNSW index configuration (`Config` in collection.rs). -/
structure Config where
  ef_construction : ℕ
  ef_search : ℕ
  ml : ℚ
deriving DecidableEq

/-- The default configuration: `ef_construction = 40`, `ef_search = 15`, `ml = 0.3`. -/
def defaultConfig : Config := { ef_construction := 40, ef_search := 15, ml := mkRat 3 10 }

/-- A record containing a vector and its associated data (`Record<D>`). -/
structure Record (D : Type) where
  vector : Vec
  data : D
deriving DecidableEq

/-- The collection nearest-neighbor search result (`SearchResult<D>`). -/
structure SearchResult (D : Type) where
  id : ℕ
  distance : ℚ
  data : D
deriving DecidableEq

/-- Error outcomes of the collection operations. The source returns boxed
string errors; the constructors here correspond one-to-one to the distinct
failure sites (`CapacityExceeded`, `DimensionMismatch`, `NotFound`,
`SearchUnavailable` for "Unable to initiate search.") plus the Rust panics
reachable in the source (`unwrap` of a missing seed during index
construction, out-of-bounds indexing in `delete_from_layers`, `HashMap`
indexing on an absent key while reporting search results). -/
inductive Err where
  | capacityExceeded
  | dimensionMismatch
  | notFound
  | searchUnavailable
  | missingData
  | deletePanicked
  | constructionPanicked
deriving DecidableEq

/-- A neighbor node row: a fixed array of `M` vector IDs (`BaseNode<M>` /
`UpperNode<M>`; unused positions hold `INVALID`). -/
abbrev Node : Type := List ℕ

/-- A fresh node row: `M` copies of `INVALID` (`BaseNode::default`). -/
def defaultNode (M : ℕ) : Node := List.replicate M INVALID

/-- `BaseNode::set`: overwrite position `i` of a row. -/
def nodeSet (i v : ℕ) (row : Node) : Node := row.set i v

/-- `BaseNode::insert`: insert at an index, shifting later entries right and
evicting the last entry to keep the fixed capacity. -/
def nodeInsert (idx v : ℕ) (row : Node) : Node :=
  ((row.take idx) ++ v :: (row.drop idx)).take row.length

/-- `iter().position(p)` on a row. -/
def findIdxQ (p : ℕ → Bool) : List ℕ → Option ℕ
  | [] => none
  | a :: t => if p a then some 0 else (findIdxQ p t).map (fun j => j + 1)

/-- Three-way comparison of the `ℚ`-modelled distances (the total order the
source gets from its NaN-rejecting wrapper). -/
def ordCmp (a b : ℚ) : Ordering :=
  if Rat.blt a b then Ordering.lt else if Rat.blt b a then Ordering.gt else Ordering.eq

/-- Modelled from the spec: a candidate seen by the search engine — a vector
ID together with its distance to the query, ordered by distance (ties broken
consistently by ID). -/
structure Candidate where
  distance : ℚ
  vid : ℕ
deriving DecidableEq

/-- Candidate ordering: ascending by distance, ties by vector ID. -/
def candLE (a b : Candidate) : Bool :=
  Rat.blt a.distance b.distance ||
    (a.distance == b.distance && Nat.ble a.vid b.vid)

/-- Ordered insertion into an ascending candidate list. -/
def insertCand (x : Candidate) : List Candidate → List Candidate
  | [] => [x]
  | y :: t => if candLE x y then x :: y :: t else y :: insertCand x t

/-- Modelled from the spec: the beam-search scratch state — `candidates` is
the min-heap of pairs still to expand, `nearest` the bounded (≤ `ef`)
best-results heap, `visited` the set preventing re-expansion. Both heaps
are modelled as ascending sorted lists. -/
structure Search where
  ef : ℕ
  candidates : List Candidate
  nearest : List Candidate
  visited : List ℕ
deriving DecidableEq

/-- Modelled from the spec: a reset-ready search as handed out by the pool
(the construction path searches upper layers with a small beam width,
historically 5, before a layer sets `ef` explicitly). -/
def Search.start : Search := { ef := 5, candidates := [], nearest := [], visited := [] }

/-- Distance of the worst (last) kept result. -/
def worstDist (l : List Candidate) : ℚ := ((l.getLast?).map Candidate.distance).getD 0

/-- Offer a candidate to `nearest`, which retains at most `ef` entries. -/
def offerNearest (ef : ℕ) (c : Candidate) (l : List Candidate) : List Candidate :=
  (insertCand c l).take ef

/-- Modelled from the spec: `Search::push` — seed/extend the search with one
vector ID: if it is live and unvisited, mark it visited, push it into the
candidate heap and offer it to `nearest`. -/
def Search.push (s : Search) (id : ℕ) (q : Vec) (vectors : KV Vec) : Search :=
  if s.visited.contains id then s
  else
    match lookupKV vectors id with
    | none => s
    | some v =>
      let cand : Candidate := { distance := distQ q v, vid := id }
      { s with visited := id :: s.visited,
               candidates := insertCand cand s.candidates,
               nearest := offerNearest s.ef cand s.nearest }

/-- Expand the (at most `M`) neighbors of a popped candidate. -/
def expandRow (q : Vec) (vectors : KV Vec) (s : Search) (nbrs : List ℕ) : Search :=
  nbrs.foldl (fun st nb => st.push nb q vectors) s

/-- Modelled from the spec: the core beam-search loop over one layer —
repeatedly pop the closest candidate; stop when `nearest` is full and the
popped distance exceeds the current worst kept; otherwise expand its
neighbor row (live, unvisited neighbors only). Fuel-driven: each iteration
pops one candidate, and at most one candidate per live vector is ever
pushed, so the fuel supplied by `Search.searchLayer` suffices. -/
def searchLoop (rows : List Node) (q : Vec) (vectors : KV Vec) (M : ℕ) :
    ℕ → Search → Search
  | 0, s => s
  | fuel + 1, s =>
    match s.candidates with
    | [] => s
    | cand :: rest =>
      if Nat.ble s.ef s.nearest.length && Rat.blt (worstDist s.nearest) cand.distance then s
      else
        let s1 := expandRow q vectors { s with candidates := rest }
          ((rows.getD cand.vid []).take M)
        searchLoop rows q vectors M fuel s1

/-- Modelled from the spec: `Search::search` over one layer slice. -/
def Search.searchLayer (s : Search) (rows : List Node) (q : Vec) (vectors : KV Vec)
    (M : ℕ) : Search :=
  searchLoop rows q vectors M (lenKV vectors + s.candidates.length + 1) s

/-- Modelled from the spec: `Search::cull` — retain the top-`M` closest in
`nearest` and re-seed the candidate heap from them. -/
def Search.cull (s : Search) (M : ℕ) : Search :=
  let nr := s.nearest.take M
  { s with nearest := nr, candidates := nr }

/-- `LayerID::descend`: the layer IDs from `top` down to `0`. -/
def descendList (top : ℕ) : List ℕ := (List.range (top + 1)).reverse

/-- The Rust `slice::binary_search_by` loop, with a comparator that can
panic (`none`) because it indexes `vectors` at a possibly-absent key.
Returns the found index (`Ordering.eq`) or the insertion point, as the
source immediately collapses `Result` with `unwrap_or_else(|e| e)`. -/
def binarySearchGo (f : ℕ → Option Ordering) (row : List ℕ) :
    ℕ → ℕ → ℕ → Option ℕ
  | 0, left, _ => some left
  | fuel + 1, left, right =>
    if right ≤ left then some left
    else
      let mid := left + (right - left) / 2
      match f (row.getD mid INVALID) with
      | none => none
      | some Ordering.lt => binarySearchGo f row fuel (mid + 1) right
      | some Ordering.gt => binarySearchGo f row fuel left mid
      | some Ordering.eq => some mid

/-- `binary_search_by(ordering).unwrap_or_else(|e| e)` on a row. -/
def binarySearchBy (f : ℕ → Option Ordering) (row : List ℕ) : Option ℕ :=
  binarySearchGo f row (row.length + 1) 0 row.length

/-- The comparator closure of `IndexConstruction::insert` (collection.rs
lines 86-93): an `INVALID` entry compares `Greater`; a valid entry `id`
yields `distance.cmp(&old.distance(&vectors[id]))`, panicking (`none`) when
`id` has no vector. -/
def neighborOrd (vectors : KV Vec) (dist : ℚ) (old : Vec) (id : ℕ) : Option Ordering :=
  if isValid id = false then some Ordering.gt
  else
    match lookupKV vectors id with
    | none => none
    | some other => some (ordCmp dist (distQ old other))

/-- One iteration of the neighbor-update loop of `IndexConstruction::insert`
(collection.rs lines 80-103): binary-search the candidate's row for the
insertion index, insert the new ID there, then set slot `i` of the new
node's own row — to `vector_id`, exactly as the source writes it. -/
def neighborStep (vectors : KV Vec) (vectorId : ℕ) (bl : List Node) (i : ℕ)
    (cand : Candidate) : Option (List Node) :=
  match lookupKV vectors cand.vid with
  | none => none
  | some old =>
    match binarySearchBy (neighborOrd vectors cand.distance old) (bl.getD cand.vid []) with
    | none => none
    | some idx =>
      let bl1 := bl.set cand.vid (nodeInsert idx vectorId (bl.getD cand.vid []))
      some (bl1.set vectorId (nodeSet i vectorId (bl1.getD vectorId [])))

/-- The neighbor-update loop over the selected candidates, threading the
base layer and propagating panics. -/
def neighborFold (vectors : KV Vec) (vectorId : ℕ) (cands : List Candidate)
    (bl : List Node) : Option (List Node) :=
  (cands.enum).foldl
    (fun acc p => acc.bind (fun b => neighborStep vectors vectorId b p.1 p.2))
    (some bl)

/-- The top-down layer walk of `IndexConstruction::insert` (collection.rs
lines 58-72): above the target layer search the upper layer and cull;
at or below it widen the beam to `ef_construction`, search the base layer
and break. -/
def ixDescend (cfg : Config) (M : ℕ) (upperLayers : List (List Node))
    (baseLayer : List Node) (v : Vec) (vectors : KV Vec) (layer : ℕ) :
    List ℕ → Search → Search
  | [], s => s
  | cur :: rest, s =>
    let s1 := if cur ≤ layer then { s with ef := cfg.ef_construction } else s
    if cur > layer then
      let s2 := (s1.searchLayer (upperLayers.getD (cur - 1) []) v vectors M).cull M
      ixDescend cfg M upperLayers baseLayer v vectors layer rest s2
    else
      s1.searchLayer baseLayer v vectors M

/-- `IndexConstruction::insert` (collection.rs lines 37-106): place
`vectorId` at `layer`. Panics (`none`) when `vectors[vector_id]` is absent,
when no valid seed ID exists in `0..vectors.len()` (the `unwrap` on
`find_first`), or when the neighbor comparator touches a missing vector.
Returns the updated base layer. -/
def indexInsert (cfg : Config) (M top : ℕ) (vectors : KV Vec)
    (upperLayers : List (List Node)) (baseLayer : List Node)
    (vectorId layer : ℕ) : Option (List Node) :=
  match lookupKV vectors vectorId with
  | none => none
  | some v =>
    match (List.range (lenKV vectors)).find? (fun i => (lookupKV vectors i).isSome) with
    | none => none
    | some validId =>
      let s0 := Search.start.push validId v vectors
      let s1 := ixDescend cfg M upperLayers baseLayer v vectors layer (descendList top) s0
      let cands := s1.nearest.take (min s1.nearest.length M)
      neighborFold vectors vectorId cands baseLayer

/-- The collection of vector records with HNSW indexing (`Collection<D, M>`).
`M` is the fixed per-node neighbor fanout (a phantom type-level constant
here, used by every operation). -/
structure Collection (D : Type) (M : ℕ) where
  config : Config
  data : KV D
  vectors : KV Vec
  slots : List ℕ
  base_layer : List Node
  upper_layers : List (List Node)
  count : ℕ
  dimension : ℕ
deriving DecidableEq

/-- `Collection::new`: an empty collection with the given configuration. -/
def Collection.new (D : Type) (M : ℕ) (config : Config) : Collection D M :=
  { config := config, count := 0, dimension := 0, data := [], vectors := [],
    slots := [], base_layer := [], upper_layers := [] }

/-- `Collection::len`. -/
def Collection.len {D : Type} {M : ℕ} (c : Collection D M) : ℕ := c.count

/-- `Collection::contains`. -/
def Collection.contains {D : Type} {M : ℕ} (c : Collection D M) (id : ℕ) : Bool :=
  (lookupKV c.vectors id).isSome

/-- `Collection::dimension`. -/
def Collection.dim {D : Type} {M : ℕ} (c : Collection D M) : ℕ := c.dimension

/-- `Collection::get`: `NotFound` when the ID is not live; the data map
indexing panics if the data entry is absent (it never is in reachable
states). -/
def Collection.get {D : Type} {M : ℕ} (c : Collection D M) (id : ℕ) :
    Except Err (Record D) :=
  match lookupKV c.vectors id with
  | none => Except.error Err.notFound
  | some v =>
    match lookupKV c.data id with
    | none => Except.error Err.missingData
    | some d => Except.ok { vector := v, data := d }

/-- Wrap the outcome of `IndexConstruction::insert` back into the
collection (`insert_to_layers` write-back): on panic the freshly pushed
default row is kept but the constructed rows are lost. -/
def packIx {D : Type} {M : ℕ} (c : Collection D M) (base1 : List Node) :
    Option (List Node) → Option Err × Collection D M
  | none => (some Err.constructionPanicked, { c with base_layer := base1 })
  | some bl => (none, { c with base_layer := bl })

/-- `Collection::insert_to_layers` (collection.rs lines 485-513): push a
default row, rebuild a locked view, and run `IndexConstruction::insert`
with the top layer as the target layer. -/
def Collection.insert_to_layers {D : Type} {M : ℕ} (c : Collection D M) (id : ℕ) :
    Option Err × Collection D M :=
  let base1 := c.base_layer ++ [defaultNode M]
  let top := if c.upper_layers.isEmpty then 0 else c.upper_layers.length
  packIx c base1 (indexInsert c.config M top c.vectors c.upper_layers base1 id top)

/-- The shared tail of `Collection::insert` after the guards: allocate the
next slot, record vector and payload, bump the count, then link into the
layers. -/
def insertCore {D : Type} {M : ℕ} (c : Collection D M) (r : Record D) :
    Option Err × Collection D M :=
  let id := c.slots.length
  let c1 : Collection D M :=
    { c with vectors := insertKV id r.vector c.vectors,
             data := insertKV id r.data c.data,
             slots := c.slots ++ [id],
             count := c.count + 1 }
  c1.insert_to_layers id

/-- `Collection::insert` (collection.rs lines 294-330): `CapacityExceeded`
when the slot table has `u32::MAX` entries; the first record sets the
dimension, and when the vector map is empty the dimension is (re)set;
otherwise a differing vector length is a dimension-mismatch error. -/
def Collection.insert {D : Type} {M : ℕ} (c : Collection D M) (r : Record D) :
    Option Err × Collection D M :=
  if c.slots.length = u32Max then (some Err.capacityExceeded, c)
  else if isEmptyKV c.vectors then
    insertCore { c with dimension := r.vector.length } r
  else if r.vector.length ≠ c.dimension then (some Err.dimensionMismatch, c)
  else insertCore c r

/-- The upper-layer half of `delete_from_layers` (collection.rs lines
525-537), walking layers from the top down to layer 1: overwrite the first
position holding `id` in row `id` of each upper layer. Indexing row `id`
is unchecked in the source, so a layer shorter than `id + 1` panics
(`false`), leaving the layers already walked modified. -/
def delFromUpper (id : ℕ) : ℕ → List (List Node) → Bool × List (List Node)
  | 0, ul => (true, ul)
  | l + 1, ul =>
    let lay := ul.getD l []
    if id < lay.length then
      let node := lay.getD id []
      let node1 :=
        match findIdxQ (fun x => x == id) node with
        | some j => nodeSet j INVALID node
        | none => node
      delFromUpper id l (ul.set l (lay.set id node1))
    else (false, ul)

/-- `Collection::delete_from_layers` (collection.rs lines 516-538): clear
the first occurrence of `id` from its own base row, then from its own row
in every upper layer (top down). The `Bool` is `false` when the unchecked
upper-layer indexing panics. The base-row access is written with `getD`
(total); it is in range for every live ID, since the base layer is always
at least as long as the slot table on the paths that reach it. -/
def Collection.delete_from_layers {D : Type} {M : ℕ} (c : Collection D M) (id : ℕ) :
    Bool × List Node × List (List Node) :=
  let row := c.base_layer.getD id []
  let base1 :=
    match findIdxQ (fun x => x == id) row with
    | some j => c.base_layer.set id (row.set j INVALID)
    | none => c.base_layer
  let r := delFromUpper id c.upper_layers.length c.upper_layers
  (r.1, base1, r.2)

/-- `Collection::delete` (collection.rs lines 334-351): `NotFound` when the
ID is not live; otherwise clear the ID from its own rows in all layers
(which can panic on a short upper layer), remove the vector and payload,
tombstone the slot and decrement the count. -/
def Collection.delete {D : Type} {M : ℕ} (c : Collection D M) (id : ℕ) :
    Option Err × Collection D M :=
  if (lookupKV c.vectors id).isSome then
    match c.delete_from_layers id with
    | (false, base1, ul1) =>
      (some Err.deletePanicked, { c with base_layer := base1, upper_layers := ul1 })
    | (true, base1, ul1) =>
      (none, { c with
               base_layer := base1
               upper_layers := ul1
               vectors := eraseKV id c.vectors
               data := eraseKV id c.data
               slots := c.slots.set id INVALID
               count := c.count - 1 })
  else (some Err.notFound, c)

/-- `Collection::update` (collection.rs lines 356-374): `NotFound` when the
ID is not live; otherwise remove from the layers, overwrite vector and
payload, and re-link through `insert_to_layers` with the same ID. -/
def Collection.update {D : Type} {M : ℕ} (c : Collection D M) (id : ℕ)
    (r : Record D) : Option Err × Collection D M :=
  if (lookupKV c.vectors id).isSome then
    match c.delete_from_layers id with
    | (false, base1, ul1) =>
      (some Err.deletePanicked, { c with base_layer := base1, upper_layers := ul1 })
    | (true, base1, ul1) =>
      let c1 : Collection D M :=
        { c with
          base_layer := base1
          upper_layers := ul1
          vectors := insertKV id r.vector c.vectors
          data := insertKV id r.data c.data }
      c1.insert_to_layers id
  else (some Err.notFound, c)

/-- The layer-sizing loop of `Collection::build` (collection.rs lines
185-198): repeatedly take `next = (len * ml) as usize` (truncation of a
non-negative product is the floor); while `next ≥ M` push the pair
`(len - next, len)` and continue from `next`; when `next < M` stop and push
the final `(len, len)`. Fuel-driven; `len` strictly decreases whenever
`ml < 1`, so the fuel `records.len() + 1` supplied by `Collection.build`
is never exhausted there. -/
def buildLayers (M : ℕ) (ml : ℚ) : ℕ → ℕ → List (ℕ × ℕ)
  | 0, len => [(len, len)]
  | fuel + 1, len =>
    let next := floorNat (qmul (len : ℚ) ml)
    if next < M then [(len, len)]
    else (len - next, len) :: buildLayers M ml fuel next

/-- The per-layer batch of `IndexConstruction::insert` calls (collection.rs
lines 250-257), in ascending ID order, threading the base layer and
propagating panics. -/
def buildIds (cfg : Config) (M top : ℕ) (vectors : KV Vec)
    (ul : List (List Node)) (layerId : ℕ) : List ℕ → List Node → Option (List Node)
  | [], bl => some bl
  | i :: rest, bl =>
    match indexInsert cfg M top vectors ul bl i layerId with
    | none => none
    | some bl2 => buildIds cfg M top vectors ul layerId rest bl2

/-- The layer-by-layer construction loop of `Collection::build`
(collection.rs lines 249-266): for each `(layer, start, end)` range insert
the IDs `start..end`, then (for non-zero layers) snapshot the first `end`
base rows into the upper layer `layer - 1` (`UpperNode::from_zero`
truncates each row to its first `M` entries). -/
def buildRanges (cfg : Config) (M top : ℕ) (vectors : KV Vec) :
    List (ℕ × ℕ × ℕ) → List Node → List (List Node) →
    Option (List Node × List (List Node))
  | [], bl, ul => some (bl, ul)
  | (layerId, start, stop) :: rest, bl, ul =>
    match buildIds cfg M top vectors ul layerId ((List.range stop).drop start) bl with
    | none => none
    | some bl2 =>
      let ul2 :=
        if layerId ≠ 0 then ul.set (layerId - 1) ((bl2.take stop).map (fun z => z.take M))
        else ul
      buildRanges cfg M top vectors rest bl2 ul2

/-- `Collection::build` (collection.rs lines 155-290): empty input gives an
empty collection; `records.len() >= u32::MAX` is the capacity error; an
inconsistent vector dimension is the dimension error; otherwise compute the
layer ranges, run the construction, and assemble the collection with
`slots = [0, .., N-1]`. -/
def Collection.build (D : Type) (M : ℕ) (cfg : Config) (records : List (Record D)) :
    Except Err (Collection D M) :=
  match records with
  | [] => Except.ok (Collection.new D M cfg)
  | r0 :: _ =>
    if u32Max ≤ records.length then Except.error Err.capacityExceeded
    else
      let dimension := r0.vector.length
      if records.any (fun r => r.vector.length ≠ dimension) then
        Except.error Err.dimensionMismatch
      else
        let layers := (buildLayers M cfg.ml (records.length + 1) records.length).reverse
        let numLayers := layers.length
        let top := numLayers - 1
        let vectors : KV Vec := records.enum.map (fun p => (p.1, p.2.vector))
        let ranges := layers.enum.map
          (fun q => (numLayers - q.1 - 1, max (q.2.2 - q.2.1) 1, q.2.2))
        let base0 : List Node := List.replicate records.length (defaultNode M)
        let upper0 : List (List Node) := List.replicate top []
        match buildRanges cfg M top vectors ranges base0 upper0 with
        | none => Except.error Err.constructionPanicked
        | some (bl, ul) =>
          Except.ok
            { config := cfg,
              data := records.enum.map (fun p => (p.1, p.2.data)),
              vectors := vectors,
              slots := List.range records.length,
              base_layer := bl,
              upper_layers := ul,
              count := records.length,
              dimension := dimension }

/-- The query-path layer walk of `Collection::search` (collection.rs lines
412-426): `ef` is `ef_search` at the base and 5 above it; search each layer
top-down and cull between layers. -/
def queryDescend {D : Type} {M : ℕ} (c : Collection D M) (q : Vec) :
    List ℕ → Search → Search
  | [], s => s
  | lay :: rest, s =>
    let s1 := { s with ef := if lay = 0 then c.config.ef_search else 5 }
    let s2 :=
      if lay = 0 then s1.searchLayer c.base_layer q c.vectors M
      else (s1.searchLayer (c.upper_layers.getD (lay - 1) []) q c.vectors M).cull M
    queryDescend c q rest s2

/-- The tail of `Collection::search` once a seed was found: run the layer
walk, then report the first `n` results in ascending distance order; the
`data` map indexing panics if a result's payload is absent (it never is in
reachable states). The `take n` happens before the mapping because the
source maps lazily through an iterator. -/
def searchRun {D : Type} {M : ℕ} (c : Collection D M) (q : Vec) (n seed : ℕ) :
    Except Err (List (SearchResult D)) :=
  let s0 := Search.start.push seed q c.vectors
  let sF := queryDescend c q (descendList c.upper_layers.length) s0
  let top := sF.nearest.take n
  match top.mapM (fun cand => (lookupKV c.data cand.vid).map
      (fun d => SearchResult.mk cand.vid cand.distance d)) with
  | some res => Except.ok res
  | none => Except.error Err.missingData

/-- `Collection::search` (collection.rs lines 391-436): an empty vector map
gives the empty result; otherwise seed from the first valid slot, failing
with the search-unavailable error when every slot is a tombstone. -/
def Collection.search {D : Type} {M : ℕ} (c : Collection D M) (q : Vec) (n : ℕ) :
    Except Err (List (SearchResult D)) :=
  if isEmptyKV c.vectors then Except.ok []
  else
    match c.slots.find? isValid with
    | none => Except.error Err.searchUnavailable
    | some seed => searchRun c q n seed

/-- The layer-count recurrence as worded by the spec (§4.5): from
`L0 = N` iterate `L(i+1) = floor(Li * ml)` and count the iterations taken
before the first value below `M`; the number of layers is this count plus
one. Stated with the same fuel bound as the embedded loop; for
`ml ∈ (0,1)` the sequence strictly decreases, so the fuel `N + 1` is never
exhausted. -/
def specLayerCount (M : ℕ) (ml : ℚ) : ℕ → ℕ → ℕ
  | 0, _ => 0
  | fuel + 1, len =>
    let next := floorNat (qmul (len : ℚ) ml)
    if next < M then 0 else specLayerCount M ml fuel next + 1

/-- The key-table invariant tying the vector map to the slot table: the
slot table never exceeds `u32::MAX` entries, and every live key occupies
the slot equal to itself (hence below `u32::MAX`, hence valid). This is
what makes the no-valid-seed branch of `Collection::search` unreachable. -/
def SlotInv {D : Type} {M : ℕ} (c : Collection D M) : Prop :=
  c.slots.length ≤ u32Max ∧
  ∀ k : ℕ, (lookupKV c.vectors k).isSome → k < u32Max ∧ c.slots[k]? = some k

/-- The collections reachable through the public constructors and the
successful mutating operations. -/
inductive Reachable {D : Type} {M : ℕ} : Collection D M → Prop where
  | mk_new (cfg : Config) : Reachable (Collection.new D M cfg)
  | mk_build (cfg : Config) (records : List (Record D)) (c : Collection D M) :
      Collection.build D M cfg records = Except.ok c → Reachable c
  | mk_insert (c c2 : Collection D M) (r : Record D) :
      Reachable c → Collection.insert c r = (none, c2) → Reachable c2
  | mk_delete (c c2 : Collection D M) (id : ℕ) :
      Reachable c → Collection.delete c id = (none, c2) → Reachable c2
  | mk_update (c c2 : Collection D M) (id : ℕ) (r : Record D) :
      Reachable c → Collection.update c id r = (none, c2) → Reachable c2

/-! ### Concrete states used as witnesses and counterexamples -/

/-- An empty collection with fanout `M = 2` and `ℕ` payloads. -/
def emptyC2 : Collection ℕ 2 := Collection.new ℕ 2 defaultConfig

/-- A one-dimensional record. -/
def recA : Record ℕ := { vector := [0], data := 100 }

/-- A second one-dimensional record. -/
def recB : Record ℕ := { vector := [1], data := 101 }

/-- `emptyC2` after inserting `recA` (the insert succeeds; ID 0). -/
def stateA : Collection ℕ 2 := (Collection.insert emptyC2 recA).2

/-- `stateA` after inserting `recB` (the insert succeeds; ID 1). -/
def stateB : Collection ℕ 2 := (Collection.insert stateA recB).2

/-- `stateB` after deleting ID 1 (the delete succeeds). -/
def stateC : Collection ℕ 2 := (Collection.delete stateB 1).2

/-- A two-dimensional record. -/
def rec2d : Record ℕ := { vector := [1, 0], data := 5 }

/-- A three-dimensional record. -/
def rec3d : Record ℕ := { vector := [1, 0, 0], data := 6 }

/-- `emptyC2` after inserting the two-dimensional `rec2d` (ID 0). -/
def stateD : Collection ℕ 2 := (Collection.insert emptyC2 rec2d).2

/-- `stateD` after deleting ID 0: the collection is empty again. -/
def stateE : Collection ℕ 2 := (Collection.delete stateD 0).2

/-- Four one-dimensional records for a two-layer build with `M = 1`. -/
def records4 : List (Record ℕ) :=
  [{ vector := [0], data := 0 }, { vector := [1], data := 1 },
   { vector := [2], data := 2 }, { vector := [3], data := 3 }]

/-- The collection built from `records4` with `M = 1`: four live IDs and
one upper layer of length 1. -/
def built4 : Collection ℕ 1 :=
  (Collection.build ℕ 1 defaultConfig records4).toOption.getD (Collection.new ℕ 1 defaultConfig)

/-- A collection whose slot table has exactly `u32::MAX = 2^32 - 1`
entries, where the capacity check of `Collection::insert` fires. -/
def bigC : Collection ℕ 2 :=
  { config := defaultConfig, data := [], vectors := [],
    slots := List.replicate u32Max 0,
    base_layer := [], upper_layers := [], count := 0, dimension := 0 }

/-! ### Association-list map lemmas -/

theorem lookupKV_cons_head {α : Type} (a : ℕ × α) (t : KV α) :
    lookupKV (a :: t) a.1 = some a.2 := by
  simp [lookupKV, List.find?]

theorem lookupKV_cons_self {α : Type} (k : ℕ) (v : α) (t : KV α) :
    lookupKV ((k, v) :: t) k = some v :=
  lookupKV_cons_head (k, v) t

theorem lookupKV_cons_ne {α : Type} (a : ℕ × α) (t : KV α) (k : ℕ) (h : a.1 ≠ k) :
    lookupKV (a :: t) k = lookupKV t k := by
  have hb : (a.1 == k) = false := by simpa using h
  simp [lookupKV, List.find?, hb]

theorem lookupKV_erase_self {α : Type} (k : ℕ) (l : KV α) :
    lookupKV (eraseKV k l) k = none := by
  induction l with
  | nil => rfl
  | cons a t ih =>
    by_cases h : a.1 = k
    · simpa [eraseKV, h] using ih
    · rw [eraseKV, List.filter_cons]
      simp only [h, bne_iff_ne, ne_eq, not_false_eq_true, if_pos, decide_eq_true_eq]
      rw [lookupKV_cons_ne _ _ _ h]
      exact ih

theorem lookupKV_erase_ne {α : Type} (k j : ℕ) (l : KV α) (h : j ≠ k) :
    lookupKV (eraseKV k l) j = lookupKV l j := by
  induction l with
  | nil => rfl
  | cons a t ih =>
    by_cases hk : a.1 = k
    · rw [eraseKV, List.filter_cons]
      simp only [hk, bne_self_eq_false, Bool.false_eq_true, if_neg, not_false_eq_true]
      rw [lookupKV_cons_ne _ _ _ (by rw [hk]; exact Ne.symm h)]
      exact ih
    · rw [eraseKV, List.filter_cons]
      simp only [bne_iff_ne, ne_eq, hk, not_false_eq_true, if_pos, decide_eq_true_eq]
      by_cases hj : a.1 = j
      · rw [← hj, lookupKV_cons_head, lookupKV_cons_head]
      · rw [lookupKV_cons_ne _ _ _ hj, lookupKV_cons_ne _ _ _ hj]
        exact ih

theorem lookupKV_insert_self {α : Type} (k : ℕ) (v : α) (l : KV α) :
    lookupKV (insertKV k v l) k = some v := by
  rw [insertKV]; exact lookupKV_cons_self k v (eraseKV k l)

theorem lookupKV_insert_ne {α : Type} (k j : ℕ) (v : α) (l : KV α) (h : j ≠ k) :
    lookupKV (insertKV k v l) j = lookupKV l j := by
  rw [insertKV, lookupKV_cons_ne (k, v) _ _ (Ne.symm h)]
  exact lookupKV_erase_ne k j l h

theorem isSome_lookupKV_erase {α : Type} {k j : ℕ} {l : KV α}
    (h : (lookupKV (eraseKV k l) j).isSome) :
    j ≠ k ∧ (lookupKV l j).isSome := by
  by_cases hj : j = k
  · subst hj; rw [lookupKV_erase_self] at h; simp at h
  · exact ⟨hj, by rwa [lookupKV_erase_ne k j l hj] at h⟩

/-! ### List helper lemmas -/

theorem find?_isSome_of_mem {α : Type} {l : List α} {p : α → Bool} {x : α}
    (hm : x ∈ l) (hp : p x = true) : (l.find? p).isSome := by
  induction l with
  | nil => cases hm
  | cons a t ih =>
    cases hpa : p a with
    | true => simp [List.find?, hpa]
    | false =>
      rcases List.mem_cons.mp hm with h | h
      · subst h; rw [hp] at hpa; cases hpa
      · simp only [List.find?, hpa]
        exact ih h

theorem findIdxQ_some {p : ℕ → Bool} :
    ∀ {l : List ℕ} {j : ℕ}, findIdxQ p l = some j → ∃ a, l[j]? = some a ∧ p a = true := by
  intro l
  induction l with
  | nil => intro j h; cases h
  | cons a t ih =>
    intro j h
    rw [findIdxQ] at h
    by_cases hpa : p a
    · rw [if_pos hpa] at h
      cases h
      exact ⟨a, by simp, hpa⟩
    · rw [if_neg hpa] at h
      rcases Option.map_eq_some'.mp h with ⟨j0, hj0, hj⟩
      rcases ih hj0 with ⟨b, hb, hpb⟩
      exact ⟨b, by rw [← hj]; simpa using hb, hpb⟩

theorem findIdxQ_none {p : ℕ → Bool} :
    ∀ {l : List ℕ}, findIdxQ p l = none → ∀ a ∈ l, p a = false := by
  intro l
  induction l with
  | nil => intro _ a ha; cases ha
  | cons b t ih =>
    intro h a ha
    rw [findIdxQ] at h
    by_cases hpb : p b
    · rw [if_pos hpb] at h; cases h
    · rw [if_neg hpb] at h
      rcases List.mem_cons.mp ha with h1 | h1
      · subst h1; exact Bool.of_not_eq_true hpb
      · exact ih (by simpa using h) a h1

theorem count_set_of_getElem {l : List ℕ} {j a x : ℕ}
    (hj : l[j]? = some a) (hx : x ≠ a) :
    (l.set j x).count a + 1 = l.count a := by
  induction l generalizing j with
  | nil => simp at hj
  | cons b t ih =>
    cases j with
    | zero =>
      simp only [List.getElem?_cons_zero, Option.some_inj] at hj
      subst hj
      rw [List.set_cons_zero, List.count_cons, List.count_cons]
      simp [hx, Ne.symm hx]
    | succ j0 =>
      simp only [List.getElem?_cons_succ] at hj
      rw [List.set_cons_succ, List.count_cons, List.count_cons]
      have := ih hj
      omega

/-! ### Facts about the write-back helpers of the mutating operations -/

theorem packIx_fst {D : Type} {M : ℕ} (c : Collection D M) (b : List Node)
    (o : Option (List Node)) :
    (packIx c b o).1 = none ∨ (packIx c b o).1 = some Err.constructionPanicked := by
  cases o <;> simp [packIx]

theorem packIx_vectors {D : Type} {M : ℕ} (c : Collection D M) (b : List Node)
    (o : Option (List Node)) : (packIx c b o).2.vectors = c.vectors := by
  cases o <;> rfl

theorem packIx_data {D : Type} {M : ℕ} (c : Collection D M) (b : List Node)
    (o : Option (List Node)) : (packIx c b o).2.data = c.data := by
  cases o <;> rfl

theorem packIx_slots {D : Type} {M : ℕ} (c : Collection D M) (b : List Node)
    (o : Option (List Node)) : (packIx c b o).2.slots = c.slots := by
  cases o <;> rfl

theorem packIx_count {D : Type} {M : ℕ} (c : Collection D M) (b : List Node)
    (o : Option (List Node)) : (packIx c b o).2.count = c.count := by
  cases o <;> rfl

theorem packIx_upper {D : Type} {M : ℕ} (c : Collection D M) (b : List Node)
    (o : Option (List Node)) : (packIx c b o).2.upper_layers = c.upper_layers := by
  cases o <;> rfl

/-- `insert_to_layers` unfolded to its `packIx` form. -/
theorem itl_eq {D : Type} {M : ℕ} (c : Collection D M) (id : ℕ) :
    c.insert_to_layers id =
      packIx c (c.base_layer ++ [defaultNode M])
        (indexInsert c.config M
          (if c.upper_layers.isEmpty then 0 else c.upper_layers.length)
          c.vectors c.upper_layers (c.base_layer ++ [defaultNode M]) id
          (if c.upper_layers.isEmpty then 0 else c.upper_layers.length)) := rfl

theorem itl_fst {D : Type} {M : ℕ} (c : Collection D M) (id : ℕ) :
    (c.insert_to_layers id).1 = none ∨
      (c.insert_to_layers id).1 = some Err.constructionPanicked := by
  rw [itl_eq]; exact packIx_fst _ _ _

theorem itl_vectors {D : Type} {M : ℕ} (c : Collection D M) (id : ℕ) :
    (c.insert_to_layers id).2.vectors = c.vectors := by
  rw [itl_eq]; exact packIx_vectors _ _ _

theorem itl_data {D : Type} {M : ℕ} (c : Collection D M) (id : ℕ) :
    (c.insert_to_layers id).2.data = c.data := by
  rw [itl_eq]; exact packIx_data _ _ _

theorem itl_slots {D : Type} {M : ℕ} (c : Collection D M) (id : ℕ) :
    (c.insert_to_layers id).2.slots = c.slots := by
  rw [itl_eq]; exact packIx_slots _ _ _

theorem itl_count {D : Type} {M : ℕ} (c : Collection D M) (id : ℕ) :
    (c.insert_to_layers id).2.count = c.count := by
  rw [itl_eq]; exact packIx_count _ _ _

/-- `insertCore` unfolded to its `insert_to_layers` form. -/
theorem insertCore_eq {D : Type} {M : ℕ} (c : Collection D M) (r : Record D) :
    insertCore c r =
      Collection.insert_to_layers
        { c with vectors := insertKV c.slots.length r.vector c.vectors,
                 data := insertKV c.slots.length r.data c.data,
                 slots := c.slots ++ [c.slots.length],
                 count := c.count + 1 }
        c.slots.length := rfl

theorem insertCore_fst {D : Type} {M : ℕ} (c : Collection D M) (r : Record D) :
    (insertCore c r).1 = none ∨ (insertCore c r).1 = some Err.constructionPanicked := by
  rw [insertCore_eq]; exact itl_fst _ _

theorem insertCore_vectors {D : Type} {M : ℕ} (c : Collection D M) (r : Record D) :
    (insertCore c r).2.vectors = insertKV c.slots.length r.vector c.vectors := by
  rw [insertCore_eq]; exact itl_vectors _ _

theorem insertCore_data {D : Type} {M : ℕ} (c : Collection D M) (r : Record D) :
    (insertCore c r).2.data = insertKV c.slots.length r.data c.data := by
  rw [insertCore_eq]; exact itl_data _ _

theorem insertCore_slots {D : Type} {M : ℕ} (c : Collection D M) (r : Record D) :
    (insertCore c r).2.slots = c.slots ++ [c.slots.length] := by
  rw [insertCore_eq]; exact itl_slots _ _

theorem insertCore_count {D : Type} {M : ℕ} (c : Collection D M) (r : Record D) :
    (insertCore c r).2.count = c.count + 1 := by
  rw [insertCore_eq]; exact itl_count _ _

/-! ### Shape of a successful insert -/

theorem insert_ok_fields {D : Type} {M : ℕ} (c c2 : Collection D M) (r : Record D)
    (h : Collection.insert c r = (none, c2)) :
    c2.vectors = insertKV c.slots.length r.vector c.vectors ∧
    c2.data = insertKV c.slots.length r.data c.data ∧
    c2.slots = c.slots ++ [c.slots.length] ∧
    c2.count = c.count + 1 ∧
    c.slots.length ≠ u32Max := by
  unfold Collection.insert at h
  by_cases hcap : c.slots.length = u32Max
  · rw [if_pos hcap] at h
    exact absurd (congrArg Prod.fst h) (by simp)
  · rw [if_neg hcap] at h
    by_cases he : isEmptyKV c.vectors = true
    · rw [if_pos he] at h
      have h2 : c2 = (insertCore { c with dimension := r.vector.length } r).2 :=
        (congrArg Prod.snd h).symm
      refine ⟨?_, ?_, ?_, ?_, hcap⟩ <;> rw [h2]
      · rw [insertCore_vectors]
      · rw [insertCore_data]
      · rw [insertCore_slots]
      · rw [insertCore_count]
    · rw [if_neg he] at h
      by_cases hd : r.vector.length ≠ c.dimension
      · rw [if_pos hd] at h
        exact absurd (congrArg Prod.fst h) (by simp)
      · rw [if_neg hd] at h
        have h2 : c2 = (insertCore c r).2 := (congrArg Prod.snd h).symm
        refine ⟨?_, ?_, ?_, ?_, hcap⟩ <;> rw [h2]
        · rw [insertCore_vectors]
        · rw [insertCore_data]
        · rw [insertCore_slots]
        · rw [insertCore_count]

/-! ### The claims -/

/-- C1: after a sequence of successful inserts without deletes, every live
node's base row should hold only neighbors different from the node itself,
sorted ascending, with slot `i` of a new node holding its `i`-th selected
neighbor. The code instead executes
`self.base_layer[vector_id].write().set(i, vector_id)` — writing the newly
inserted node's OWN ID into its own slots — so already after the very
first successful insert into an empty collection the single live node's
base row contains the node's own ID. -/
theorem c1_inserted_node_lists_itself :
    (Collection.insert emptyC2 recA).1 = none ∧
    0 ∈ (Collection.insert emptyC2 recA).2.base_layer.getD 0 [] := by decide

/-- C2 counterexample: insert two records (IDs 0 and 1; the second insert
links ID 1 into node 0's base row), then delete ID 1. The slot of ID 1 is
the tombstone `INVALID`, node 0 is still live, yet node 0's base-layer
neighbor row still contains VectorID 1 — `delete_from_layers` only cleans
the deleted node's own rows, so the claimed invariant is false. -/
theorem c2_deleted_id_persists_in_live_row :
    (Collection.delete stateB 1).1 = none ∧
    stateC.slots[1]? = some INVALID ∧
    (lookupKV stateC.vectors 0).isSome = true ∧
    1 ∈ stateC.base_layer.getD 0 [] := by decide

/-- C2 (amended): a successful `delete(id)` tombstones slot `id`, leaves
every other node's base-layer row untouched, and removes exactly one
occurrence of `id` from the node's own base row when one is present;
occurrences of a deleted ID in other live nodes' rows persist (search
skips them via the liveness check). -/
theorem c2_delete_touches_only_own_row {D : Type} {M : ℕ}
    (c c2 : Collection D M) (id : ℕ)
    (hid : id < c.slots.length) (hinv : id ≠ INVALID)
    (h : Collection.delete c id = (none, c2)) :
    c2.slots[id]? = some INVALID ∧
    (∀ j, j ≠ id → c2.base_layer[j]? = c.base_layer[j]?) ∧
    (id ∈ c.base_layer.getD id [] →
      (c2.base_layer.getD id []).count id + 1 = (c.base_layer.getD id []).count id) := by
  unfold Collection.delete at h
  by_cases hl : (lookupKV c.vectors id).isSome = true
  swap
  · rw [if_neg hl] at h
    exact absurd (congrArg Prod.fst h) (by simp)
  rw [if_pos hl] at h
  rcases hdel : c.delete_from_layers id with ⟨ok, b1, u1⟩
  rw [hdel] at h
  cases ok with
  | false => exact absurd (congrArg Prod.fst h) (by simp)
  | true =>
    have hc2 : c2 = { c with
        base_layer := b1
        upper_layers := u1
        vectors := eraseKV id c.vectors
        data := eraseKV id c.data
        slots := c.slots.set id INVALID
        count := c.count - 1 } := (congrArg Prod.snd h).symm
    have hb1 : b1 = (match findIdxQ (fun x => x == id) (c.base_layer.getD id []) with
      | some j => c.base_layer.set id ((c.base_layer.getD id []).set j INVALID)
      | none => c.base_layer) := by
      have h2 := congrArg (fun p => p.2.1) hdel
      simpa [Collection.delete_from_layers, nodeSet] using h2.symm
    refine ⟨?_, ?_, ?_⟩
    · rw [hc2]
      exact List.getElem?_set_self hid
    · intro j hj
      rw [hc2]
      show b1[j]? = c.base_layer[j]?
      rw [hb1]
      cases hfi : findIdxQ (fun x => x == id) (c.base_layer.getD id []) with
      | none => rfl
      | some jj => exact List.getElem?_set_ne (Ne.symm hj)
    · intro hmem
      rw [hc2]
      show (b1.getD id []).count id + 1 = (c.base_layer.getD id []).count id
      by_cases hbl : id < c.base_layer.length
      swap
      · exfalso
        have hrow : c.base_layer.getD id [] = [] := by
          rw [List.getD_eq_getElem?_getD, List.getElem?_eq_none (by omega)]
          rfl
        rw [hrow] at hmem
        cases hmem
      · cases hfi : findIdxQ (fun x => x == id) (c.base_layer.getD id []) with
        | none =>
          exfalso
          have := findIdxQ_none hfi id hmem
          simp at this
        | some j =>
          rw [hb1, hfi]
          have hrow : (c.base_layer.set id
              ((c.base_layer.getD id []).set j INVALID)).getD id [] =
              (c.base_layer.getD id []).set j INVALID := by
            rw [List.getD_eq_getElem?_getD, List.getElem?_set_self hbl]
            rfl
          rw [hrow]
          rcases findIdxQ_some hfi with ⟨a, ha, hpa⟩
          have haid : a = id := by simpa using hpa
          subst haid
          exact count_set_of_getElem ha (Ne.symm hinv)

/-- C2 (amended) witness: the general delete characterization applied to
the concrete two-record collection at ID 1. -/
theorem c2_delete_touches_only_own_row_witness :
    stateC.slots[1]? = some INVALID ∧
    stateC.base_layer[0]? = stateB.base_layer[0]? ∧
    (1 ∈ stateB.base_layer.getD 1 [] →
      (stateC.base_layer.getD 1 []).count 1 + 1 = (stateB.base_layer.getD 1 []).count 1) := by
  have h := c2_delete_touches_only_own_row stateB stateC 1 (by decide) (by decide) rfl
  exact ⟨h.1, h.2.1 0 (by decide), h.2.2⟩

/-- C3: `delete(id)` should return `NotFound` exactly for non-live IDs and
succeed on every live ID. The claim is right and the code is wrong: with
`M = 1`, building four one-dimensional records yields two layers whose
upper layer holds a single row, and `delete(3)` — a live ID — panics on the
unchecked indexing `upper_layer[3]` in `delete_from_layers` instead of
returning `Ok`. -/
theorem c3_delete_live_id_panics :
    (Collection.build ℕ 1 defaultConfig records4).toOption = some built4 ∧
    Collection.contains built4 3 = true ∧
    built4.upper_layers.length = 1 ∧
    (built4.upper_layers.getD 0 []).length = 1 ∧
    (Collection.delete built4 3).1 = some Err.deletePanicked := by decide

/-- C4 counterexample: insert the two-dimensional record (establishing
dimension 2), delete it (the collection becomes empty), then insert a
three-dimensional record. The claim demands `DimensionMismatch`; the code
instead resets the dimension because the vector map is empty and then
panics in `insert_to_layers` (the seed scan `0..vectors.len()` misses the
only key, 1) — so no `DimensionMismatch` is produced. -/
theorem c4_dimension_reset_after_total_delete :
    (Collection.insert emptyC2 rec2d).1 = none ∧
    stateD.dimension = 2 ∧
    (Collection.delete stateD 0).1 = none ∧
    rec3d.vector.length = 3 ∧
    (Collection.insert stateE rec3d).1 = some Err.constructionPanicked := by decide

/-- C4 (amended): while the collection still holds at least one vector, an
insert whose vector length differs from the established dimension fails
with the dimension-mismatch error and leaves the collection unchanged; if
every record has been deleted, the next insert re-establishes the
dimension instead of checking it. -/
theorem c4_dimension_mismatch_while_nonempty {D : Type} {M : ℕ}
    (c : Collection D M) (r : Record D)
    (h1 : c.vectors ≠ []) (h2 : r.vector.length ≠ c.dimension)
    (h3 : c.slots.length ≠ u32Max) :
    Collection.insert c r = (some Err.dimensionMismatch, c) := by
  unfold Collection.insert
  rw [if_neg h3]
  have he : isEmptyKV c.vectors = false := by
    rw [isEmptyKV, List.isEmpty_eq_false]
    exact h1
  rw [he]
  simp only [Bool.false_eq_true, if_false]
  rw [if_pos h2]

/-- C4 (amended) witness: the dimension check fires on the concrete
one-record two-dimensional collection. -/
theorem c4_dimension_mismatch_while_nonempty_witness :
    stateD.vectors ≠ [] ∧ rec3d.vector.length ≠ stateD.dimension ∧
    stateD.slots.length ≠ u32Max ∧
    Collection.insert stateD rec3d = (some Err.dimensionMismatch, stateD) :=
  ⟨by decide, by decide, by decide,
    c4_dimension_mismatch_while_nonempty stateD rec3d (by decide) (by decide) (by decide)⟩

/-- C5 counterexample: the capacity check of `Collection::insert` compares
against `u32::MAX = 2^32 - 1`, not `2^32`: on a collection whose slot
table has `2^32 - 1` entries — strictly fewer than `2^32` — the insert
already fails with `CapacityExceeded`, contradicting the claim that every
insert with `slot_table.len() < 2^32` does not fail for capacity reasons. -/
theorem c5_capacity_error_below_two_pow_32 :
    (Collection.insert bigC recA).1 = some Err.capacityExceeded ∧
    bigC.slots.length < 2 ^ 32 := by
  constructor
  · have hlen : bigC.slots.length = u32Max := by
      show (List.replicate u32Max 0).length = u32Max
      exact List.length_replicate u32Max 0
    unfold Collection.insert
    rw [if_pos hlen]
  · show (List.replicate u32Max 0).length < 2 ^ 32
    rw [List.length_replicate]
    norm_num [u32Max]

/-- C5 (amended): `insert` fails with `CapacityExceeded` exactly when the
slot table holds `u32::MAX = 2^32 - 1` entries (so the slot table never
grows past `2^32 - 1` entries). -/
theorem c5_capacity_iff {D : Type} {M : ℕ} (c : Collection D M) (r : Record D) :
    (Collection.insert c r).1 = some Err.capacityExceeded ↔
      c.slots.length = u32Max := by
  unfold Collection.insert
  by_cases h : c.slots.length = u32Max
  · rw [if_pos h]
    simp [h]
  · rw [if_neg h]
    constructor
    · intro hc
      exfalso
      by_cases he : isEmptyKV c.vectors = true
      · rw [if_pos he] at hc
        rcases insertCore_fst { c with dimension := r.vector.length } r with h0 | h0 <;>
          rw [h0] at hc <;> simp at hc
      · rw [if_neg he] at hc
        by_cases hd : r.vector.length ≠ c.dimension
        · rw [if_pos hd] at hc
          simp at hc
        · rw [if_neg hd] at hc
          rcases insertCore_fst c r with h0 | h0 <;> rw [h0] at hc <;> simp at hc
    · intro hc
      exact absurd hc h

/-- C7: for every record whose insert succeeds, `get` at the assigned
VectorID (the slot-table length at insert time) returns the very record:
the vector exactly equal and the data equal. -/
theorem c7_get_after_insert {D : Type} {M : ℕ} (c c2 : Collection D M) (r : Record D)
    (h : Collection.insert c r = (none, c2)) :
    Collection.get c2 c.slots.length = Except.ok { vector := r.vector, data := r.data } := by
  obtain ⟨hv, hd, -, -, -⟩ := insert_ok_fields c c2 r h
  unfold Collection.get
  rw [hv, lookupKV_insert_self, hd, lookupKV_insert_self]

/-- C7 witness: inserting the concrete record into the empty collection and
reading it back through `get`. -/
theorem c7_get_after_insert_witness :
    Collection.insert emptyC2 recA = (none, stateA) ∧
    Collection.get stateA emptyC2.slots.length =
      Except.ok { vector := recA.vector, data := recA.data } :=
  ⟨rfl, c7_get_after_insert emptyC2 stateA recA rfl⟩

/-- C8: a successful insert assigns the fresh VectorID `slot_table.len()`,
appends exactly that ID to the slot table, stores the record's vector
under it, and leaves every previously live ID's vector binding unchanged;
moreover no operation ever shortens the slot table (`delete` and `update`
preserve its length), so an assigned ID is never handed out again. -/
theorem c8_fresh_id_assignment {D : Type} {M : ℕ} (c c2 : Collection D M)
    (r r2 : Record D) (i j : ℕ)
    (hkeys : ∀ k, (lookupKV c.vectors k).isSome → k < c.slots.length)
    (h : Collection.insert c r = (none, c2)) :
    c2.slots = c.slots ++ [c.slots.length] ∧
    lookupKV c2.vectors c.slots.length = some r.vector ∧
    (∀ k, (lookupKV c.vectors k).isSome →
      lookupKV c2.vectors k = lookupKV c.vectors k) ∧
    (Collection.delete c i).2.slots.length = c.slots.length ∧
    (Collection.update c j r2).2.slots.length = c.slots.length := by
  obtain ⟨hv, -, hs, -, -⟩ := insert_ok_fields c c2 r h
  refine ⟨hs, ?_, ?_, ?_, ?_⟩
  · rw [hv, lookupKV_insert_self]
  · intro k hk
    have hlt : k < c.slots.length := hkeys k hk
    rw [hv, lookupKV_insert_ne _ _ _ _ (by omega)]
  · unfold Collection.delete
    by_cases hl : (lookupKV c.vectors i).isSome = true
    · rw [if_pos hl]
      rcases hdel : c.delete_from_layers i with ⟨ok, b1, u1⟩
      cases ok with
      | false => simp
      | true => simp [List.length_set]
    · rw [if_neg hl]
  · unfold Collection.update
    by_cases hl : (lookupKV c.vectors j).isSome = true
    · rw [if_pos hl]
      rcases hdel : c.delete_from_layers j with ⟨ok, b1, u1⟩
      cases ok with
      | false => simp
      | true =>
        simp only
        rw [itl_slots]
    · rw [if_neg hl]

/-- C8 witness: the fresh-ID facts at the concrete first insert. -/
theorem c8_fresh_id_assignment_witness :
    stateA.slots = emptyC2.slots ++ [emptyC2.slots.length] ∧
    lookupKV stateA.vectors emptyC2.slots.length = some recA.vector := by
  have hk : ∀ k, (lookupKV emptyC2.vectors k).isSome → k < emptyC2.slots.length := by
    intro k hkk
    simp [emptyC2, Collection.new, lookupKV, List.find?] at hkk
  have h := c8_fresh_id_assignment emptyC2 stateA recA recA 0 0 hk rfl
  exact ⟨h.1, h.2.1⟩

/-- C9: building from the empty record list succeeds with an empty
collection (`len() = 0`), and searching any collection with no stored
vectors returns the empty result list without an error. -/
theorem c9_empty_build_and_search {D : Type} {M : ℕ} (cfg : Config)
    (c : Collection D M) (q : Vec) (n : ℕ) :
    Collection.build D M cfg [] = Except.ok (Collection.new D M cfg) ∧
    Collection.len (Collection.new D M cfg) = 0 ∧
    (c.vectors = [] → Collection.search c q n = Except.ok []) := by
  refine ⟨rfl, rfl, ?_⟩
  intro hv
  unfold Collection.search
  rw [if_pos (by rw [isEmptyKV, hv]; rfl)]

/-- C9 witness: the empty build and the empty search on concrete inputs. -/
theorem c9_empty_build_and_search_witness :
    Collection.build ℕ 2 defaultConfig [] = Except.ok (Collection.new ℕ 2 defaultConfig) ∧
    Collection.len (Collection.new ℕ 2 defaultConfig) = 0 ∧
    Collection.search (Collection.new ℕ 2 defaultConfig) [0, 0] 5 = Except.ok [] := by
  have h := c9_empty_build_and_search defaultConfig (Collection.new ℕ 2 defaultConfig) [0, 0] 5
  exact ⟨h.1, h.2.1, h.2.2 rfl⟩

/-! ### Layer counting (C6) -/

theorem buildLayers_length (M : ℕ) (ml : ℚ) :
    ∀ fuel len : ℕ,
      (buildLayers M ml fuel len).length = specLayerCount M ml fuel len + 1 := by
  intro fuel
  induction fuel with
  | zero => intro len; rfl
  | succ f ih =>
    intro len
    simp only [buildLayers, specLayerCount]
    split
    · rfl
    · simp [ih]

theorem buildRanges_ul_length (cfg : Config) (M top : ℕ) (vectors : KV Vec) :
    ∀ (ranges : List (ℕ × ℕ × ℕ)) (bl : List Node) (ul : List (List Node))
      (bl2 : List Node) (ul2 : List (List Node)),
      buildRanges cfg M top vectors ranges bl ul = some (bl2, ul2) →
      ul2.length = ul.length := by
  intro ranges
  induction ranges with
  | nil =>
    intro bl ul bl2 ul2 h
    simp only [buildRanges, Option.some.injEq, Prod.mk.injEq] at h
    rw [← h.2]
  | cons rg rest ih =>
    intro bl ul bl2 ul2 h
    rcases rg with ⟨layerId, start, stop⟩
    simp only [buildRanges] at h
    cases hbi : buildIds cfg M top vectors ul layerId ((List.range stop).drop start) bl with
    | none => rw [hbi] at h; cases h
    | some blA =>
      rw [hbi] at h
      have h2 := ih _ _ _ _ h
      by_cases hz : layerId ≠ 0
      · rw [if_pos hz] at h2
        rw [h2, List.length_set]
      · rw [if_neg hz] at h2
        exact h2

/-- The shape of a successful non-empty build: the vector map is the
enumerated records, the slot table is `[0, .., N-1]`, the count is `N`,
and the number of upper layers is the layer-loop count. -/
theorem build_ok_shape {D : Type} {M : ℕ} (cfg : Config) (r0 : Record D)
    (rest : List (Record D)) (c : Collection D M)
    (h : Collection.build D M cfg (r0 :: rest) = Except.ok c) :
    c.vectors = (r0 :: rest).enum.map (fun p => (p.1, p.2.vector)) ∧
    c.slots = List.range (r0 :: rest).length ∧
    c.count = (r0 :: rest).length ∧
    c.upper_layers.length + 1 =
      (buildLayers M cfg.ml ((r0 :: rest).length + 1) (r0 :: rest).length).length ∧
    (r0 :: rest).length < u32Max := by
  simp only [Collection.build] at h
  by_cases hcap : u32Max ≤ (r0 :: rest).length
  · rw [if_pos hcap] at h; simp at h
  · rw [if_neg hcap] at h
    by_cases hdim :
        ((r0 :: rest).any (fun r => r.vector.length ≠ r0.vector.length)) = true
    · rw [if_pos hdim] at h; simp at h
    · rw [if_neg hdim] at h
      split at h
      · simp at h
      · rename_i bl ul heq
        injection h with hc
        subst hc
        refine ⟨rfl, rfl, rfl, ?_, by omega⟩
        show ul.length + 1 = _
        have h1 := buildRanges_ul_length _ _ _ _ _ _ _ _ _ heq
        rw [List.length_replicate] at h1
        rw [h1, List.length_reverse]
        have h2 := buildLayers_length M cfg.ml ((r0 :: rest).length + 1) (r0 :: rest).length
        omega

/-- C6: for a successful build over a non-empty record list of length `N`
with `ml ∈ (0,1)`, the number of layers of the resulting collection
(`upper_layers.len() + 1`) is `k + 1`, where `k` counts the iterations of
`L0 = N`, `L(i+1) = floor(Li * ml)` before the first value below `M`. -/
theorem c6_layer_count {D : Type} {M : ℕ} (cfg : Config)
    (records : List (Record D)) (c : Collection D M)
    (hne : records ≠ []) (_hml0 : 0 < cfg.ml) (_hml1 : cfg.ml < 1)
    (hb : Collection.build D M cfg records = Except.ok c) :
    c.upper_layers.length + 1 =
      specLayerCount M cfg.ml (records.length + 1) records.length + 1 := by
  rcases records with _ | ⟨r0, rest⟩
  · exact absurd rfl hne
  · obtain ⟨-, -, -, hup, -⟩ := build_ok_shape cfg r0 rest c hb
    rw [hup]
    exact buildLayers_length M cfg.ml _ _

/-- C6 witness: the concrete `M = 1` build of four records has one upper
layer, matching one iteration of the sizing sequence (`floor(4*0.3) = 1`,
then `floor(1*0.3) = 0 < 1` stops). -/
theorem c6_layer_count_witness :
    records4 ≠ [] ∧ (0 : ℚ) < defaultConfig.ml ∧ defaultConfig.ml < 1 ∧
    built4.upper_layers.length + 1 =
      specLayerCount 1 defaultConfig.ml (records4.length + 1) records4.length + 1 :=
  ⟨by decide, by decide, by decide,
    c6_layer_count defaultConfig records4 built4 (by decide) (by decide) (by decide) rfl⟩

/-! ### The slot-table invariant and its preservation (C10) -/

theorem lt_of_getElemQ {α : Type} {l : List α} {i : ℕ} {a : α}
    (h : l[i]? = some a) : i < l.length := by
  by_contra hc
  rw [List.getElem?_eq_none (by omega)] at h
  cases h

theorem lookup_enumFrom_lt {D : Type} :
    ∀ (l : List (Record D)) (n k : ℕ),
      (lookupKV ((l.enumFrom n).map (fun p => (p.1, p.2.vector))) k).isSome →
      n ≤ k ∧ k < n + l.length := by
  intro l
  induction l with
  | nil => intro n k h; simp [lookupKV, List.enumFrom] at h
  | cons r t ih =>
    intro n k h
    simp only [List.enumFrom, List.map_cons] at h
    by_cases hk : n = k
    · subst hk
      refine ⟨le_refl n, ?_⟩
      simp only [List.length_cons]
      omega
    · rw [lookupKV_cons_ne (n, r.vector) _ k hk] at h
      have h2 := ih (n + 1) k h
      refine ⟨by omega, ?_⟩
      simp only [List.length_cons]
      omega

theorem slotInv_new {D : Type} {M : ℕ} (cfg : Config) :
    SlotInv (Collection.new D M cfg) := by
  constructor
  · exact Nat.zero_le _
  · intro k hk
    simp [Collection.new, lookupKV, List.find?] at hk

theorem slotInv_build {D : Type} {M : ℕ} (cfg : Config)
    (records : List (Record D)) (c : Collection D M)
    (h : Collection.build D M cfg records = Except.ok c) : SlotInv c := by
  rcases records with _ | ⟨r0, rest⟩
  · simp only [Collection.build] at h
    injection h with hc
    subst hc
    exact slotInv_new cfg
  · obtain ⟨hv, hs, -, -, hlen⟩ := build_ok_shape cfg r0 rest c h
    constructor
    · rw [hs, List.length_range]; omega
    · intro k hk
      rw [hv] at hk
      have hb : (0 : ℕ) ≤ k ∧ k < 0 + (r0 :: rest).length := by
        apply lookup_enumFrom_lt (r0 :: rest) 0 k
        simpa [List.enum] using hk
      refine ⟨by omega, ?_⟩
      rw [hs]
      exact List.getElem?_range (by omega)

theorem slotInv_insert {D : Type} {M : ℕ} (c c2 : Collection D M) (r : Record D)
    (hI : SlotInv c) (h : Collection.insert c r = (none, c2)) : SlotInv c2 := by
  obtain ⟨hv, -, hs, -, hcap⟩ := insert_ok_fields c c2 r h
  obtain ⟨hlen, hkey⟩ := hI
  have hltmax : c.slots.length < u32Max := by omega
  constructor
  · rw [hs, List.length_append]
    simp only [List.length_cons, List.length_nil]
    omega
  · intro k hk
    rw [hv] at hk
    by_cases hkid : k = c.slots.length
    · subst hkid
      refine ⟨hltmax, ?_⟩
      rw [hs]
      exact List.getElem?_concat_length _ _
    · rw [lookupKV_insert_ne _ _ _ _ hkid] at hk
      obtain ⟨hk1, hk2⟩ := hkey k hk
      refine ⟨hk1, ?_⟩
      rw [hs, List.getElem?_append_left (lt_of_getElemQ hk2)]
      exact hk2

theorem slotInv_delete {D : Type} {M : ℕ} (c c2 : Collection D M) (id : ℕ)
    (hI : SlotInv c) (h : Collection.delete c id = (none, c2)) : SlotInv c2 := by
  obtain ⟨hlen, hkey⟩ := hI
  unfold Collection.delete at h
  by_cases hl : (lookupKV c.vectors id).isSome = true
  swap
  · rw [if_neg hl] at h
    exact absurd (congrArg Prod.fst h) (by simp)
  rw [if_pos hl] at h
  rcases hdel : c.delete_from_layers id with ⟨ok, b1, u1⟩
  rw [hdel] at h
  cases ok with
  | false => exact absurd (congrArg Prod.fst h) (by simp)
  | true =>
    have hc2 : c2 = { c with
        base_layer := b1
        upper_layers := u1
        vectors := eraseKV id c.vectors
        data := eraseKV id c.data
        slots := c.slots.set id INVALID
        count := c.count - 1 } := (congrArg Prod.snd h).symm
    rw [hc2]
    constructor
    · show (c.slots.set id INVALID).length ≤ u32Max
      rw [List.length_set]
      exact hlen
    · intro k hk
      obtain ⟨hne, hold⟩ := isSome_lookupKV_erase hk
      obtain ⟨hk1, hk2⟩ := hkey k hold
      refine ⟨hk1, ?_⟩
      show (c.slots.set id INVALID)[k]? = some k
      rw [List.getElem?_set_ne (Ne.symm hne)]
      exact hk2

theorem slotInv_update {D : Type} {M : ℕ} (c c2 : Collection D M) (id : ℕ)
    (r : Record D) (hI : SlotInv c)
    (h : Collection.update c id r = (none, c2)) : SlotInv c2 := by
  obtain ⟨hlen, hkey⟩ := hI
  unfold Collection.update at h
  by_cases hl : (lookupKV c.vectors id).isSome = true
  swap
  · rw [if_neg hl] at h
    exact absurd (congrArg Prod.fst h) (by simp)
  rw [if_pos hl] at h
  rcases hdel : c.delete_from_layers id with ⟨ok, b1, u1⟩
  rw [hdel] at h
  cases ok with
  | false => exact absurd (congrArg Prod.fst h) (by simp)
  | true =>
    have hc2 := congrArg Prod.snd h
    simp only at hc2
    have hvec : c2.vectors = insertKV id r.vector c.vectors := by
      rw [← hc2, itl_vectors]
    have hslot : c2.slots = c.slots := by
      rw [← hc2, itl_slots]
    constructor
    · rw [hslot]; exact hlen
    · intro k hk
      rw [hvec] at hk
      by_cases hkid : k = id
      · subst hkid
        obtain ⟨hk1, hk2⟩ := hkey k hl
        exact ⟨hk1, by rw [hslot]; exact hk2⟩
      · rw [lookupKV_insert_ne _ _ _ _ hkid] at hk
        obtain ⟨hk1, hk2⟩ := hkey k hk
        exact ⟨hk1, by rw [hslot]; exact hk2⟩

theorem reachable_slotInv {D : Type} {M : ℕ} (c : Collection D M)
    (h : Reachable c) : SlotInv c := by
  induction h with
  | mk_new cfg => exact slotInv_new cfg
  | mk_build cfg records c hb => exact slotInv_build cfg records c hb
  | mk_insert c c2 r _ hstep ih => exact slotInv_insert c c2 r ih hstep
  | mk_delete c c2 id _ hstep ih => exact slotInv_delete c c2 id ih hstep
  | mk_update c c2 id r _ hstep ih => exact slotInv_update c c2 id r ih hstep

theorem searchRun_ne_unavailable {D : Type} {M : ℕ} (c : Collection D M)
    (q : Vec) (n seed : ℕ) :
    searchRun c q n seed ≠ Except.error Err.searchUnavailable := by
  simp only [searchRun]
  split <;> simp

/-- C10: on every collection reachable through the public constructors and
successful mutations, `search` never returns the no-valid-seed error
(`SearchUnavailable`, "Unable to initiate search."): when a vector is
stored, its own slot is a valid entry, so the seed scan always finds one;
when no vector is stored, `search` returns the empty result early. -/
theorem c10_search_unavailable_unreachable {D : Type} {M : ℕ}
    (c : Collection D M) (q : Vec) (n : ℕ) (h : Reachable c) :
    Collection.search c q n ≠ Except.error Err.searchUnavailable := by
  obtain ⟨-, hkey⟩ := reachable_slotInv c h
  unfold Collection.search
  by_cases he : isEmptyKV c.vectors = true
  · rw [if_pos he]; simp
  · rw [if_neg he]
    cases hcv : c.vectors with
    | nil => rw [hcv] at he; exact absurd rfl he
    | cons p t =>
      have hp : (lookupKV c.vectors p.1).isSome := by
        rw [hcv, lookupKV_cons_head]; rfl
      obtain ⟨hp1, hp2⟩ := hkey p.1 hp
      have hmem : p.1 ∈ c.slots := List.getElem?_mem hp2
      have hval : isValid p.1 = true := by
        simpa [isValid, INVALID] using Nat.ne_of_lt hp1
      have hfind := find?_isSome_of_mem hmem hval
      cases hf : c.slots.find? isValid with
      | none => rw [hf] at hfind; cases hfind
      | some seed =>
        exact searchRun_ne_unavailable c q n seed

/-- C10 witness: the reachable one-record collection searches without the
seed error. -/
theorem c10_search_unavailable_unreachable_witness :
    Collection.search stateA [0] 5 ≠ Except.error Err.searchUnavailable :=
  c10_search_unavailable_unreachable stateA [0] 5
    (Reachable.mk_insert emptyC2 stateA recA (Reachable.mk_new defaultConfig) rfl)
